import Mathlib

/-!
Verification development for the image backing-store core of the repository
(`src/imageimpl.go`, package `ebiten`).

The per-image state machine (`imageImpl`) is translated definition by
definition from the Go source: the CPU pixel cache, the flat base color, the
ordered draw-history log, and the operations `Fill`, `DrawImage`, `At`,
`resetHistoryIfNeeded`, `restore`, `Dispose`, `ReplacePixels`.

The GPU texture backend (`internal/graphics`, not part of the two source
files) is external to the core; it is modelled from the spec (section 6):
a texture is a pixel-indexed RGBA surface, `compositeDraw` for the
whole-extent identity-transform quad composites source-over per pixel,
`readPixels` serialises the surface row-major as RGBA8 bytes.  The geometry
and color transforms are treated by the spec as opaque values passed
through; the claims only exercise the identity transforms, so the model
carries them as one-value types.  Cross-image references (Go pointers,
compared by identity) are rendered as indices into a list of image states.
Go's `panic` is rendered as a distinguished abort constructor, separate
from error-valued returns; fallible backend calls that a claim depends on
(texture disposal, pixel readback in `resetHistoryIfNeeded`) take the
backend's success as an explicit boolean oracle.
-/

namespace Ebiten

/-- An RGBA8 color; each channel is a byte value 0..255. -/
structure RGBA where
  r : Nat
  g : Nat
  b : Nat
  a : Nat
deriving DecidableEq

/-- Fully-transparent black, Go's `color.Transparent` as RGBA8. -/
def RGBA.transparent : RGBA := ⟨0, 0, 0, 0⟩

/-- Opaque red, the color used by the spec's restore-fidelity scenario. -/
def opaqueRed : RGBA := ⟨255, 0, 0, 255⟩

/-- Modelled from the spec: source-over compositing on premultiplied-alpha
RGBA8 pixels (`out = src + dst * (255 - srcAlpha) / 255`, clamped), the
blend the backend performs for the default composite mode. -/
def srcOver (s d : RGBA) : RGBA :=
  ⟨min 255 (s.r + d.r * (255 - s.a) / 255),
   min 255 (s.g + d.g * (255 - s.a) / 255),
   min 255 (s.b + d.b * (255 - s.a) / 255),
   min 255 (s.a + d.a * (255 - s.a) / 255)⟩

/-- Modelled from the spec: the composite (blend) mode recorded in a draw.
The claims only exercise the default source-over mode. -/
inductive CompositeMode where
  | sourceOver : CompositeMode
deriving DecidableEq

/-- Modelled from the spec: the geometry transform, an opaque value passed
through; the claims only exercise the identity transform. -/
inductive GeoM where
  | identity : GeoM
deriving DecidableEq

/-- Modelled from the spec: the color transform, an opaque value passed
through; the claims only exercise the identity transform. -/
inductive ColorM where
  | identity : ColorM
deriving DecidableEq

/-- The sampling filter of an image, fixed at construction. -/
inductive Filter where
  | nearest : Filter
  | linear : Filter
deriving DecidableEq

/-- Per-pixel effect of a composite mode. -/
def compositePix : CompositeMode → RGBA → RGBA → RGBA
  | .sourceOver, s, d => srcOver s d

/-- Modelled from the spec: the vertex quads computed (outside this core)
from a parts selection.  `empty` is a selection producing no vertices;
`whole w h` is the quad set covering the whole extent of a `w`-by-`h`
source (the `wholeImage` default). -/
inductive Quads where
  | empty : Quads
  | whole (w h : Nat) : Quads
deriving DecidableEq

/-- The number of vertex values the quad computation produced (`n` in the
Go source); a whole-image selection yields one 16-value quad. -/
def Quads.count : Quads → Nat
  | .empty => 0
  | .whole _ _ => 16

/-- Modelled from the spec: a GPU texture (`*graphics.Image`), a
pixel-indexed RGBA surface of fixed size. -/
structure GImage where
  width : Nat
  height : Nat
  pix : Nat → RGBA

/-- Serialise the first `n` pixels of a surface as flat RGBA8 bytes. -/
def serializeFrom (f : Nat → RGBA) : Nat → List Nat
  | 0 => []
  | n + 1 => serializeFrom f n ++ [(f n).r, (f n).g, (f n).b, (f n).a]

/-- Modelled from the spec: `readPixels` returns the texture's content as a
row-major RGBA8 byte buffer of length `4*width*height`. -/
def GImage.readPixels (g : GImage) : List Nat :=
  serializeFrom g.pix (g.width * g.height)

/-- The pixel stored at pixel index `k` of a flat RGBA8 byte buffer. -/
def pixAt (p : List Nat) (k : Nat) : RGBA :=
  ⟨p.getD (4 * k) 0, p.getD (4 * k + 1) 0, p.getD (4 * k + 2) 0,
   p.getD (4 * k + 3) 0⟩

/-- Modelled from the spec: `fill` sets every pixel of the texture. -/
def GImage.fill (g : GImage) (c : RGBA) : GImage :=
  { g with pix := fun _ => c }

/-- Modelled from the spec: `replacePixels` overwrites the texture from a
flat RGBA8 byte buffer. -/
def GImage.replacePixels (g : GImage) (p : List Nat) : GImage :=
  { g with pix := fun k => pixAt p k }

/-- Modelled from the spec: `compositeDraw`.  An empty quad set draws
nothing; the whole-extent quad set composites every source pixel over the
destination pixel at the same position using the blend mode (the geometry
and color transforms being identity). -/
def gpuDraw (dst src : GImage) (q : Quads) (_geom : GeoM) (_colorm : ColorM)
    (mode : CompositeMode) : GImage :=
  match q with
  | .empty => dst
  | .whole _ _ => { dst with pix := fun k => compositePix mode (src.pix k) (dst.pix k) }

/-- A fresh blank (transparent) texture, as produced by `createTexture` and
by `createScreenFramebufferHandle` (the platform guarantees a cleared
framebuffer). -/
def blankGImage (w h : Nat) : GImage := ⟨w, h, fun _ => RGBA.transparent⟩

/-- One record of the draw-history log (`drawImageHistoryItem`): the source
image (an identity reference, rendered as an index), the precomputed vertex
quads, and the transform/blend parameters. -/
structure DrawImageHistoryItem where
  image : Nat
  vertices : Quads
  geom : GeoM
  colorm : ColorM
  mode : CompositeMode
deriving DecidableEq

/-- The image backing store (`imageImpl`).  `image` is the owned GPU
texture (`none` once released); `pixels` is the optional CPU pixel cache;
`finalizer` records whether the finalization fallback is still registered.
The per-image mutex is not modelled: the embedding is sequential. -/
structure ImageState where
  image : Option GImage
  disposed : Bool
  width : Nat
  height : Nat
  filter : Filter
  pixels : Option (List Nat)
  baseColor : Option RGBA
  drawImageHistory : List DrawImageHistoryItem
  volatile : Bool
  screen : Bool
  finalizer : Bool

/-- Dereference the owned texture; the dummy value stands for Go's nil
pointer, dereferenced only on paths where `disposed` was checked false. -/
def getImg : Option GImage → GImage
  | some g => g
  | none => blankGImage 0 0

/-- Look an image up by identity in the system (Go pointers cannot dangle;
the dummy is never reached by an in-bounds identity). -/
def getImage (sys : List ImageState) (k : Nat) : ImageState :=
  sys.getD k ⟨none, true, 0, 0, .nearest, none, none, [], false, false, false⟩

/-- The error values the core returns (`errors.New` strings in the source,
plus propagated backend failures). -/
inductive EbitenError where
  | alreadyDisposed : EbitenError
  | sizeMismatch : EbitenError
  | invalidOperand : EbitenError
  | backend : EbitenError
deriving DecidableEq

/-- `newImageImpl`: a blank image; the pixel cache is pre-allocated to
zero and the finalization fallback registered. -/
def newImageImpl (w h : Nat) (filter : Filter) (volatile : Bool) : ImageState :=
  { image := some (blankGImage w h)
    disposed := false
    width := w
    height := h
    filter := filter
    pixels := some (List.replicate (w * h * 4) 0)
    baseColor := none
    drawImageHistory := []
    volatile := volatile
    screen := false
    finalizer := true }

/-- `newScreenImageImpl`: the screen image; always volatile, bound to the
platform framebuffer. -/
def newScreenImageImpl (w h : Nat) : ImageState :=
  { image := some (blankGImage w h)
    disposed := false
    width := w
    height := h
    filter := .nearest
    pixels := some (List.replicate (w * h * 4) 0)
    baseColor := none
    drawImageHistory := []
    volatile := true
    screen := true
    finalizer := true }

/-- `Fill`: clears the pixel cache and history, records the base color and
issues the GPU fill. -/
def Fill (i : ImageState) (c : RGBA) : Option EbitenError × ImageState :=
  if i.disposed then (some .alreadyDisposed, i)
  else
    (none, { i with pixels := none, baseColor := some c, drawImageHistory := [],
                    image := some ((getImg i.image).fill c) })

/-- `clearIfVolatile`: per-frame reset of a volatile image. -/
def clearIfVolatile (i : ImageState) : Option EbitenError × ImageState :=
  if i.disposed then (none, i)
  else if i.volatile = false then (none, i)
  else
    (none, { i with pixels := none, baseColor := none, drawImageHistory := [],
                    image := some ((getImg i.image).fill RGBA.transparent) })

/-- `DrawImage` on the system: `dst` and `src` are image identities; `q`
is the vertex quad set already computed (outside the lock) from the
caller's parts selection.  If the quad computation produced no vertices
the call returns success at once; then self-draw and disposal are checked;
then the record is appended and the GPU composite issued. -/
def DrawImage (sys : List ImageState) (dst src : Nat) (q : Quads)
    (geom : GeoM) (colorm : ColorM) (mode : CompositeMode) :
    Option EbitenError × List ImageState :=
  if q.count = 0 then (none, sys)
  else if dst = src then (some .invalidOperand, sys)
  else
    let i := getImage sys dst
    if i.disposed then (some .alreadyDisposed, sys)
    else
      let c : DrawImageHistoryItem := ⟨src, q, geom, colorm, mode⟩
      let s := getImage sys src
      let i' := { i with
        drawImageHistory := i.drawImageHistory ++ [c],
        image := some (gpuDraw (getImg i.image) (getImg s.image) q geom colorm mode) }
      (none, sys.set dst i')

/-- The pixel read by `At`: four consecutive bytes starting at `idx`. -/
def colorAt (p : List Nat) (idx : Nat) : RGBA :=
  ⟨p.getD idx 0, p.getD (idx + 1) 0, p.getD (idx + 2) 0, p.getD (idx + 3) 0⟩

/-- `At`: point sampling.  `running` is the loop's context-initialized
flag; when it is false the Go source panics (`none` here).  A disposed
image yields transparent.  Otherwise, when the cache is absent or history
is pending, the texture is read back into the cache and the history
cleared; the result is the RGBA value at byte offset `4*x + 4*y*width`. -/
def At (running : Bool) (i : ImageState) (x y : Nat) :
    Option (RGBA × ImageState) :=
  if running = false then none
  else if i.disposed then some (RGBA.transparent, i)
  else if i.pixels = none ∨ i.drawImageHistory.isEmpty = false then
    let p := (getImg i.image).readPixels
    some (colorAt p (4 * x + 4 * y * i.width),
          { i with pixels := some p, drawImageHistory := [] })
  else
    some (colorAt (i.pixels.getD []) (4 * x + 4 * y * i.width), i)

/-- `hasHistoryWith`: does any record of the history log name `target` as
its draw source? -/
def hasHistoryWith (i : ImageState) (target : Nat) : Bool :=
  i.drawImageHistory.any (fun c => c.image = target)

/-- `resetHistoryIfNeeded`: flatten before `target` is mutated.  `rbOk` is
the backend readback's success; on failure the Go source assigns the nil
result to the cache and still returns success (the error is swallowed). -/
def resetHistoryIfNeeded (rbOk : Bool) (i : ImageState) (target : Nat) :
    Option EbitenError × ImageState :=
  if i.disposed then (none, i)
  else if i.drawImageHistory.isEmpty then (none, i)
  else if hasHistoryWith i target = false then (none, i)
  else if rbOk = false then (none, { i with pixels := none })
  else
    (none, { i with pixels := some ((getImg i.image).readPixels),
                    baseColor := none, drawImageHistory := [] })

/-- `hasHistory`: is the history log non-empty (non-nil in Go)? -/
def hasHistory (i : ImageState) : Bool :=
  !i.drawImageHistory.isEmpty

/-- The outcome of `restore`: a new image state, or the `panic("not
reach")` abort (a crash, not an error-valued return). -/
inductive RestoreResult where
  | ok (st : ImageState) : RestoreResult
  | panicNotReach : RestoreResult

/-- The in-memory buffer `restore` seeds for a persistent image: the pixel
cache if present, else the base color broadcast to every pixel, else
transparent. -/
def restoreSeed (i : ImageState) : Nat → RGBA :=
  match i.pixels with
  | some p => fun k => pixAt p k
  | none =>
    match i.baseColor with
    | some c => fun _ => c
    | none => fun _ => RGBA.transparent

/-- The current texture of a record's source image. -/
def sourceTexture (sys : List ImageState) (c : DrawImageHistoryItem) : GImage :=
  getImg (getImage sys c.image).image

/-- The replay loop of `restore`: each record in order is checked
(`panic` when its source still has history) and then composited against
its source's current texture. -/
def replay (sys : List ImageState) :
    List DrawImageHistoryItem → GImage → Option GImage
  | [], g => some g
  | c :: rest, g =>
    if hasHistory (getImage sys c.image) then none
    else
      replay sys rest
        (gpuDraw g (sourceTexture sys c) c.vertices c.geom c.colorm c.mode)

/-- `restore`: the context-loss recovery of one image.  Disposed images
are skipped; the screen image re-binds to a fresh framebuffer; a volatile
image gets a fresh blank texture.  A persistent image seeds a buffer
(pixel cache, else base color, else transparent), uploads it, replays the
history, reads the result back into the cache when any record was
replayed, and clears the base color and history. -/
def restore (sys : List ImageState) (i : ImageState) : RestoreResult :=
  if i.disposed then .ok i
  else if i.screen then
    .ok { i with image := some (blankGImage i.width i.height) }
  else if i.volatile = false then
    match replay sys i.drawImageHistory ⟨i.width, i.height, restoreSeed i⟩ with
    | none => .panicNotReach
    | some img =>
      .ok { i with
        image := some img,
        pixels :=
          if 0 < i.drawImageHistory.length then some img.readPixels else i.pixels,
        baseColor := none,
        drawImageHistory := [] }
  else .ok { i with image := some (blankGImage i.width i.height) }

/-- `Dispose`: releases the texture (skipped for the screen image; `gpuOk`
is the backend disposal's success, whose failure is propagated before any
state change), clears all cached state, marks the image disposed and
cancels the finalization fallback. -/
def Dispose (gpuOk : Bool) (i : ImageState) : Option EbitenError × ImageState :=
  if i.disposed then (some .alreadyDisposed, i)
  else if i.screen = false ∧ gpuOk = false then (some .backend, i)
  else
    (none, { i with image := none, disposed := true, pixels := none,
                    baseColor := none, drawImageHistory := [], finalizer := false })

/-- Go's `copy(dst, src)`: the first `min (len dst) (len src)` entries of
`dst` are overwritten from `src`; the rest of `dst` is kept. -/
def goCopy (dst src : List Nat) : List Nat :=
  src.take dst.length ++ dst.drop (min dst.length src.length)

/-- The cache buffer `ReplacePixels` writes through: the existing cache,
allocated zeroed first when absent. -/
def replaceCache (i : ImageState) (p : List Nat) : List Nat :=
  goCopy (match i.pixels with
          | none => List.replicate (i.width * i.height * 4) 0
          | some q => q) p

/-- `ReplacePixels`: the length check comes first; then the bytes are
copied into the (possibly freshly allocated) cache and the base color and
history cleared; only then is the disposed flag checked, so a disposed
image errors after its cache has already mutated. -/
def ReplacePixels (i : ImageState) (p : List Nat) :
    Option EbitenError × ImageState :=
  if p.length ≠ 4 * i.width * i.height then (some .sizeMismatch, i)
  else
    let i' := { i with pixels := some (replaceCache i p),
                       baseColor := none, drawImageHistory := [] }
    if i.disposed then (some .alreadyDisposed, i')
    else (none, { i' with image := some ((getImg i.image).replacePixels p) })

/-- `isDisposed`. -/
def isDisposed (i : ImageState) : Bool := i.disposed

/-! ### Shared lemmas about the pixel-buffer serialisation -/

theorem serializeFrom_length (f : Nat → RGBA) (n : Nat) :
    (serializeFrom f n).length = 4 * n := by
  induction n with
  | zero => rfl
  | succ n ih => simp [serializeFrom, ih]; omega

theorem serializeFrom_getD (f : Nat → RGBA) (n i : Nat) (h : i < n) :
    (serializeFrom f n).getD (4 * i) 0 = (f i).r ∧
    (serializeFrom f n).getD (4 * i + 1) 0 = (f i).g ∧
    (serializeFrom f n).getD (4 * i + 2) 0 = (f i).b ∧
    (serializeFrom f n).getD (4 * i + 3) 0 = (f i).a := by
  induction n with
  | zero => omega
  | succ n ih =>
    have hstep : serializeFrom f (n + 1) =
        serializeFrom f n ++ [(f n).r, (f n).g, (f n).b, (f n).a] := rfl
    have hlen := serializeFrom_length f n
    rcases Nat.lt_succ_iff_lt_or_eq.mp h with h' | rfl
    · obtain ⟨e0, e1, e2, e3⟩ := ih h'
      refine ⟨?_, ?_, ?_, ?_⟩
      · rw [hstep, List.getD_append _ _ _ _ (by omega), e0]
      · rw [hstep, List.getD_append _ _ _ _ (by omega), e1]
      · rw [hstep, List.getD_append _ _ _ _ (by omega), e2]
      · rw [hstep, List.getD_append _ _ _ _ (by omega), e3]
    · refine ⟨?_, ?_, ?_, ?_⟩
      · rw [hstep, List.getD_append_right _ _ _ _ (by omega), hlen, Nat.sub_self]
        rfl
      · rw [hstep, List.getD_append_right _ _ _ _ (by omega), hlen,
          show 4 * i + 1 - 4 * i = 1 by omega]
        rfl
      · rw [hstep, List.getD_append_right _ _ _ _ (by omega), hlen,
          show 4 * i + 2 - 4 * i = 2 by omega]
        rfl
      · rw [hstep, List.getD_append_right _ _ _ _ (by omega), hlen,
          show 4 * i + 3 - 4 * i = 3 by omega]
        rfl

/-- Reading a serialised surface back at an in-range pixel index recovers
the pixel. -/
theorem colorAt_serializeFrom (f : Nat → RGBA) (n i : Nat) (h : i < n) :
    colorAt (serializeFrom f n) (4 * i) = f i := by
  obtain ⟨e0, e1, e2, e3⟩ := serializeFrom_getD f n i h
  rw [colorAt, e0, e1, e2, e3]

theorem getD_replicate_zero (n j : Nat) : (List.replicate n 0).getD j 0 = 0 := by
  induction n generalizing j with
  | zero => rfl
  | succ n ih =>
    cases j with
    | zero => rfl
    | succ j => simp [List.replicate, ih j]

/-- The zero-filled pixel cache a blank image allocates holds transparent
pixels everywhere. -/
theorem pixAt_replicate_zero (n k : Nat) :
    pixAt (List.replicate n 0) k = RGBA.transparent := by
  simp [pixAt, RGBA.transparent, getD_replicate_zero]

/-- Source-over with an opaque red source pixel replaces the destination. -/
theorem srcOver_opaqueRed (d : RGBA) : srcOver opaqueRed d = opaqueRed := by
  simp [srcOver, opaqueRed]

/-! ### Claim theorems -/

/-- C7: `ReplacePixels` with a buffer whose length differs from
`4*width*height` returns the size-mismatch error and performs no mutation
at all: the pixel cache, base color, draw history and GPU texture are left
unchanged, the length check coming before any state mutation or GPU
call. -/
theorem replacePixels_size_mismatch (i : ImageState) (p : List Nat)
    (h : p.length ≠ 4 * i.width * i.height) :
    ReplacePixels i p = (some .sizeMismatch, i) := by
  simp [ReplacePixels, h]

theorem replacePixels_size_mismatch_witness :
    ([0, 0, 0] : List Nat).length ≠
        4 * (newImageImpl 1 1 .nearest false).width *
          (newImageImpl 1 1 .nearest false).height ∧
    ReplacePixels (newImageImpl 1 1 .nearest false) [0, 0, 0] =
      (some .sizeMismatch, newImageImpl 1 1 .nearest false) :=
  ⟨by decide, replacePixels_size_mismatch _ _ (by decide)⟩

/-- C10: when the vertex-quad computation produced zero vertices,
`DrawImage` returns success immediately: no self-draw check, no disposed
check, no history record appended, no GPU call — the system is returned
unchanged, whatever the destination (even disposed, even equal to the
source). -/
theorem drawImage_zero_vertices_noop (sys : List ImageState) (dst src : Nat)
    (q : Quads) (geom : GeoM) (colorm : ColorM) (mode : CompositeMode)
    (h : q.count = 0) :
    DrawImage sys dst src q geom colorm mode = (none, sys) := by
  simp [DrawImage, h]

theorem drawImage_zero_vertices_noop_witness :
    Quads.count .empty = 0 ∧
    DrawImage [(Dispose true (newImageImpl 1 1 .nearest false)).snd] 0 0
        .empty .identity .identity .sourceOver =
      (none, [(Dispose true (newImageImpl 1 1 .nearest false)).snd]) :=
  ⟨rfl, drawImage_zero_vertices_noop _ _ _ _ _ _ _ rfl⟩

/-- C4 counterexample: a self-draw whose parts selection produced zero
vertices does NOT return the invalid-operand error — it returns success,
refuting "DrawImage with the receiver itself as the source always returns
an InvalidOperand error". -/
theorem selfDraw_empty_parts_no_error :
    (DrawImage [newImageImpl 1 1 .nearest false] 0 0 .empty .identity
        .identity .sourceOver).fst = none ∧
    (none : Option EbitenError) ≠ some .invalidOperand := by
  exact ⟨rfl, by decide⟩

/-- C4 (amended): whenever the vertex-quad computation produced at least
one vertex, a self-draw is rejected with the invalid-operand error before
the disposed check, and the system state is left unchanged. -/
theorem selfDraw_rejected (sys : List ImageState) (k : Nat) (q : Quads)
    (geom : GeoM) (colorm : ColorM) (mode : CompositeMode)
    (h : q.count ≠ 0) :
    DrawImage sys k k q geom colorm mode = (some .invalidOperand, sys) := by
  simp [DrawImage, h]

theorem selfDraw_rejected_witness :
    Quads.count (.whole 1 1) ≠ 0 ∧
    DrawImage [newImageImpl 1 1 .nearest false] 0 0 (.whole 1 1) .identity
        .identity .sourceOver =
      (some .invalidOperand, [newImageImpl 1 1 .nearest false]) :=
  ⟨by decide, selfDraw_rejected _ _ _ _ _ _ (by decide)⟩

/-- C6: `ReplacePixels` on a disposed image returns the already-disposed
error, but the CPU-side mutation has already happened: the bytes are
copied into the pixel cache (allocated zeroed if absent) and the base
color and draw history are cleared before the disposed flag is checked. -/
theorem replacePixels_disposed_mutates (i : ImageState) (p : List Nat)
    (hd : i.disposed = true) (hl : p.length = 4 * i.width * i.height) :
    ReplacePixels i p =
      (some .alreadyDisposed,
       { i with pixels := some (replaceCache i p), baseColor := none,
                drawImageHistory := [] }) := by
  simp [ReplacePixels, hl, hd]

/-- A concrete disposed 1-by-1 image. -/
def disposed11 : ImageState :=
  (Dispose true (newImageImpl 1 1 .nearest false)).snd

theorem replacePixels_disposed_mutates_witness :
    disposed11.disposed = true ∧
    ([7, 7, 7, 7] : List Nat).length = 4 * disposed11.width * disposed11.height ∧
    ReplacePixels disposed11 [7, 7, 7, 7] =
      (some .alreadyDisposed,
       { disposed11 with pixels := some (replaceCache disposed11 [7, 7, 7, 7]),
                         baseColor := none, drawImageHistory := [] }) :=
  ⟨rfl, rfl, replacePixels_disposed_mutates _ _ rfl rfl⟩

/-- C8: `resetHistoryIfNeeded` is a no-op returning success when the image
is disposed, has empty history, or no record's source is the target;
otherwise it flattens (reads the texture back into the cache and clears
base color and history); and it returns success in every case — a
readback failure is swallowed. -/
theorem resetHistoryIfNeeded_spec (rbOk : Bool) (i : ImageState) (t : Nat) :
    (i.disposed = true ∨ i.drawImageHistory = [] ∨ hasHistoryWith i t = false →
      resetHistoryIfNeeded rbOk i t = (none, i)) ∧
    (i.disposed = false → i.drawImageHistory ≠ [] → hasHistoryWith i t = true →
      rbOk = true →
      resetHistoryIfNeeded rbOk i t =
        (none, { i with pixels := some ((getImg i.image).readPixels),
                        baseColor := none, drawImageHistory := [] })) ∧
    (resetHistoryIfNeeded rbOk i t).fst = none := by
  refine ⟨?_, ?_, ?_⟩
  · intro hcond
    unfold resetHistoryIfNeeded
    by_cases hd : i.disposed = true
    · rw [if_pos hd]
    · rw [if_neg hd]
      by_cases hh : i.drawImageHistory.isEmpty = true
      · rw [if_pos hh]
      · rw [if_neg hh]
        have ht : hasHistoryWith i t = false := by
          rcases hcond with h1 | h2 | h3
          · exact absurd h1 hd
          · exact absurd (by simp [List.isEmpty_iff, h2]) hh
          · exact h3
        rw [if_pos ht]
  · intro hd hh ht hrb
    unfold resetHistoryIfNeeded
    rw [if_neg (by simp [hd]), if_neg (by simp [List.isEmpty_iff, hh]),
      if_neg (by simp [ht]), if_neg (by simp [hrb])]
  · unfold resetHistoryIfNeeded
    split
    · rfl
    split
    · rfl
    split
    · rfl
    split
    · rfl
    · rfl

/-- A concrete image whose single history record names image 0 as source. -/
def oneRecord11 : ImageState :=
  { newImageImpl 1 1 .nearest false with
    drawImageHistory := [⟨0, .whole 1 1, .identity, .identity, .sourceOver⟩] }

theorem resetHistoryIfNeeded_spec_witness :
    resetHistoryIfNeeded true oneRecord11 1 = (none, oneRecord11) ∧
    resetHistoryIfNeeded true oneRecord11 0 =
      (none, { oneRecord11 with
        pixels := some ((getImg oneRecord11.image).readPixels),
        baseColor := none, drawImageHistory := [] }) ∧
    (resetHistoryIfNeeded false oneRecord11 0).fst = none :=
  ⟨(resetHistoryIfNeeded_spec true oneRecord11 1).1 (Or.inr (Or.inr (by decide))),
   (resetHistoryIfNeeded_spec true oneRecord11 0).2.1 rfl (by decide) (by decide) rfl,
   (resetHistoryIfNeeded_spec false oneRecord11 0).2.2⟩

/-- The state `Dispose` leaves behind: texture released, caches cleared,
disposed flag set, finalization fallback cancelled. -/
def disposedState (i : ImageState) : ImageState :=
  { i with image := none, disposed := true, pixels := none, baseColor := none,
           drawImageHistory := [], finalizer := false }

/-- C9: the first `Dispose` succeeds (given the backend texture release
succeeds — it is skipped for screen images): it releases the texture,
clears the pixel cache, base color and history, sets the disposed flag and
cancels the finalization fallback; and every subsequent `Dispose` of the
resulting state returns the already-disposed error and changes nothing,
so disposal is irreversible. -/
theorem dispose_first_then_error (gpuOk : Bool) (i : ImageState)
    (hd : i.disposed = false) (hok : i.screen = true ∨ gpuOk = true) :
    Dispose gpuOk i = (none, disposedState i) ∧
    (∀ g2 : Bool, Dispose g2 (disposedState i) =
      (some .alreadyDisposed, disposedState i)) := by
  constructor
  · rcases hok with hs | hg
    · simp [Dispose, hd, hs, disposedState]
    · simp [Dispose, hd, hg, disposedState]
  · intro g2
    simp [Dispose, disposedState]

theorem dispose_first_then_error_witness :
    (newImageImpl 2 2 .nearest false).disposed = false ∧
    Dispose true (newImageImpl 2 2 .nearest false) =
      (none, disposedState (newImageImpl 2 2 .nearest false)) ∧
    Dispose false (disposedState (newImageImpl 2 2 .nearest false)) =
      (some .alreadyDisposed, disposedState (newImageImpl 2 2 .nearest false)) :=
  ⟨rfl,
   (dispose_first_then_error true (newImageImpl 2 2 .nearest false) rfl
      (Or.inr rfl)).1,
   (dispose_first_then_error true (newImageImpl 2 2 .nearest false) rfl
      (Or.inr rfl)).2 false⟩

/-- C5: on a running context, `At` on a disposed image returns
fully-transparent black and changes nothing; on a non-disposed image it
performs a full readback into the pixel cache and clears the draw history
exactly when the cache is absent or the history is non-empty, and then
returns the RGBA value at byte offset `4*(x + y*width)` of the cache. -/
theorem at_spec (running : Bool) (i : ImageState) (x y : Nat) :
    (running = true → i.disposed = true →
      At running i x y = some (RGBA.transparent, i)) ∧
    (running = true → i.disposed = false →
      i.pixels = none ∨ i.drawImageHistory ≠ [] →
      At running i x y =
        some (colorAt (getImg i.image).readPixels (4 * (x + y * i.width)),
              { i with pixels := some (getImg i.image).readPixels,
                       drawImageHistory := [] })) ∧
    (running = true → i.disposed = false → ∀ p, i.pixels = some p →
      i.drawImageHistory = [] →
      At running i x y = some (colorAt p (4 * (x + y * i.width)), i)) := by
  have hidx : 4 * (x + y * i.width) = 4 * x + 4 * y * i.width := by ring
  refine ⟨?_, ?_, ?_⟩
  · intro hr hd
    unfold At
    rw [if_neg (by simp [hr]), if_pos hd]
  · intro hr hd hcond
    have hcond' : i.pixels = none ∨ i.drawImageHistory.isEmpty = false := by
      rcases hcond with h1 | h2
      · exact Or.inl h1
      · exact Or.inr (by simp [List.isEmpty_iff, h2])
    unfold At
    rw [if_neg (by simp [hr]), if_neg (by simp [hd]), if_pos hcond', hidx]
  · intro hr hd p hp hh
    unfold At
    rw [if_neg (by simp [hr]), if_neg (by simp [hd]),
      if_neg (by simp [hp, hh]), hp, hidx]
    rfl

/-- A concrete image with an absent pixel cache (after a `Fill`). -/
def filled11 : ImageState := (Fill (newImageImpl 1 1 .nearest false) opaqueRed).snd

theorem at_spec_witness :
    At true disposed11 0 0 = some (RGBA.transparent, disposed11) ∧
    At true filled11 0 0 =
      some (colorAt (getImg filled11.image).readPixels
              (4 * (0 + 0 * filled11.width)),
            { filled11 with pixels := some (getImg filled11.image).readPixels,
                            drawImageHistory := [] }) ∧
    At true (newImageImpl 1 1 .nearest false) 0 0 =
      some (colorAt (List.replicate (1 * 1 * 4) 0)
              (4 * (0 + 0 * (newImageImpl 1 1 .nearest false).width)),
            newImageImpl 1 1 .nearest false) :=
  ⟨(at_spec true disposed11 0 0).1 rfl rfl,
   (at_spec true filled11 0 0).2.1 rfl rfl (Or.inl rfl),
   (at_spec true (newImageImpl 1 1 .nearest false) 0 0).2.2 rfl rfl _ rfl rfl⟩

/-! ### Restore: replay characterisation -/

/-- When no record's source still has pending history, the replay loop
succeeds and is the left fold of the composite over the history in
original append order, each draw taken against the source's current
texture. -/
theorem replay_eq_foldl (sys : List ImageState)
    (l : List DrawImageHistoryItem) (g : GImage)
    (h : ∀ c ∈ l, (getImage sys c.image).drawImageHistory = []) :
    replay sys l g = some (l.foldl (fun acc c =>
      gpuDraw acc (sourceTexture sys c) c.vertices c.geom c.colorm c.mode) g) := by
  induction l generalizing g with
  | nil => rfl
  | cons c rest ih =>
    have hc := h c (List.mem_cons_self _ _)
    have hflat : hasHistory (getImage sys c.image) = false := by
      simp [hasHistory, hc]
    rw [replay, if_neg (by simp [hflat]), List.foldl_cons]
    exact ih _ (fun d hd => h d (List.mem_cons_of_mem _ hd))

/-- When some record's source still has pending history, the replay loop
aborts with the `panic("not reach")`. -/
theorem replay_panics (sys : List ImageState)
    (l : List DrawImageHistoryItem) (g : GImage)
    (h : ∃ c ∈ l, (getImage sys c.image).drawImageHistory ≠ []) :
    replay sys l g = none := by
  induction l generalizing g with
  | nil => simp at h
  | cons c rest ih =>
    by_cases hc : hasHistory (getImage sys c.image) = true
    · rw [replay, if_pos hc]
    · have hc' : (getImage sys c.image).drawImageHistory = [] := by
        simp [hasHistory, List.isEmpty_iff] at hc
        exact hc
      rw [replay, if_neg (by simp [hc])]
      apply ih
      rcases h with ⟨d, hd, hne⟩
      rcases List.mem_cons.mp hd with rfl | hd'
      · exact absurd hc' hne
      · exact ⟨d, hd', hne⟩

/-- C2: `restore` of a non-disposed, non-volatile, non-screen image seeds
a buffer from the pixel cache if present, else broadcasts the base color,
else leaves it transparent (`restoreSeed`); uploads it as the new texture;
and replays every history record in original append order against each
record's source's current texture (the left fold).  When some record's
source still has non-empty history the restore aborts with the
`panic("not reach")` — a crash, not an error-valued return. -/
theorem restore_persistent (sys : List ImageState) (i : ImageState)
    (hd : i.disposed = false) (hv : i.volatile = false) (hs : i.screen = false) :
    ((∀ c ∈ i.drawImageHistory, (getImage sys c.image).drawImageHistory = []) →
      restore sys i = .ok { i with
        image := some (i.drawImageHistory.foldl (fun acc c =>
          gpuDraw acc (sourceTexture sys c) c.vertices c.geom c.colorm c.mode)
          ⟨i.width, i.height, restoreSeed i⟩),
        pixels :=
          if 0 < i.drawImageHistory.length then
            some (GImage.readPixels (i.drawImageHistory.foldl (fun acc c =>
              gpuDraw acc (sourceTexture sys c) c.vertices c.geom c.colorm
                c.mode) ⟨i.width, i.height, restoreSeed i⟩))
          else i.pixels,
        baseColor := none,
        drawImageHistory := [] }) ∧
    ((∃ c ∈ i.drawImageHistory, (getImage sys c.image).drawImageHistory ≠ []) →
      restore sys i = .panicNotReach) := by
  constructor
  · intro hflat
    unfold restore
    rw [if_neg (by simp [hd]), if_neg (by simp [hs]), if_pos hv,
      replay_eq_foldl sys _ _ hflat]
  · intro hpanic
    unfold restore
    rw [if_neg (by simp [hd]), if_neg (by simp [hs]), if_pos hv,
      replay_panics sys _ _ hpanic]

/-- A system in which image 1 was drawn onto once from image 0 (which was
filled red and has no history), and image 2 was then drawn onto from
image 1 (whose history is still pending). -/
def chainSys : List ImageState :=
  let sys0 := [filled11, newImageImpl 1 1 .nearest false,
               newImageImpl 1 1 .nearest false]
  let sys1 := (DrawImage sys0 1 0 (.whole 1 1) .identity .identity
    .sourceOver).snd
  (DrawImage sys1 2 1 (.whole 1 1) .identity .identity .sourceOver).snd

theorem restore_persistent_witness :
    (∀ c ∈ (getImage chainSys 1).drawImageHistory,
      (getImage chainSys c.image).drawImageHistory = []) ∧
    restore chainSys (getImage chainSys 1) = .ok { getImage chainSys 1 with
      image := some ((getImage chainSys 1).drawImageHistory.foldl (fun acc c =>
        gpuDraw acc (sourceTexture chainSys c) c.vertices c.geom c.colorm
          c.mode)
        ⟨(getImage chainSys 1).width, (getImage chainSys 1).height,
         restoreSeed (getImage chainSys 1)⟩),
      pixels :=
        if 0 < (getImage chainSys 1).drawImageHistory.length then
          some (GImage.readPixels ((getImage chainSys 1).drawImageHistory.foldl
            (fun acc c => gpuDraw acc (sourceTexture chainSys c) c.vertices
              c.geom c.colorm c.mode)
            ⟨(getImage chainSys 1).width, (getImage chainSys 1).height,
             restoreSeed (getImage chainSys 1)⟩))
        else (getImage chainSys 1).pixels,
      baseColor := none,
      drawImageHistory := [] } ∧
    (∃ c ∈ (getImage chainSys 2).drawImageHistory,
      (getImage chainSys c.image).drawImageHistory ≠ []) ∧
    restore chainSys (getImage chainSys 2) = .panicNotReach :=
  ⟨by decide,
   (restore_persistent chainSys (getImage chainSys 1) (by decide) (by decide)
      (by decide)).1 (by decide),
   by decide,
   (restore_persistent chainSys (getImage chainSys 2) (by decide) (by decide)
      (by decide)).2 (by decide)⟩

/-- A 1-by-1 image whose base color is set and whose history is empty
(the state right after `Fill(opaque red)`). -/
def baseOnly11 : ImageState := filled11

/-- C3 counterexample: restoring a persistent image whose draw history is
empty but whose base color is set does NOT leave the base color available:
the source clears `baseColor` (and the history) unconditionally, outside
the `0 < len(history)` guard, so after the restore the base color is gone
(and the pixel cache is still absent). -/
theorem restore_clears_baseColor_without_replay :
    baseOnly11.baseColor = some opaqueRed ∧
    baseOnly11.drawImageHistory = [] ∧
    baseOnly11.pixels = none ∧
    restore [] baseOnly11 = .ok { baseOnly11 with
      image := some ⟨baseOnly11.width, baseOnly11.height,
                     restoreSeed baseOnly11⟩,
      pixels := none, baseColor := none, drawImageHistory := [] } ∧
    (some opaqueRed ≠ (none : Option RGBA)) := by
  refine ⟨rfl, rfl, rfl, rfl, by decide⟩

/-- C3 (amended): during restore of a persistent image (whose record
sources are all flattened), `baseColor` and `drawImageHistory` are cleared
unconditionally; only the pixel-cache readback is conditional — the cache
is re-populated exactly when at least one history record was replayed, and
left as it was otherwise. -/
theorem restore_conditional_readback (sys : List ImageState) (i : ImageState)
    (hd : i.disposed = false) (hv : i.volatile = false) (hs : i.screen = false)
    (hflat : ∀ c ∈ i.drawImageHistory,
      (getImage sys c.image).drawImageHistory = []) :
    ∃ img, restore sys i = .ok { i with
      image := some img,
      pixels :=
        if 0 < i.drawImageHistory.length then some img.readPixels
        else i.pixels,
      baseColor := none,
      drawImageHistory := [] } := by
  refine ⟨_, (restore_persistent sys i hd hv hs).1 hflat⟩

theorem restore_conditional_readback_witness :
    (∀ c ∈ baseOnly11.drawImageHistory,
      (getImage [] c.image).drawImageHistory = []) ∧
    ∃ img, restore [] baseOnly11 = .ok { baseOnly11 with
      image := some img,
      pixels :=
        if 0 < baseOnly11.drawImageHistory.length then some img.readPixels
        else baseOnly11.pixels,
      baseColor := none,
      drawImageHistory := [] } :=
  ⟨by decide,
   restore_conditional_readback [] baseOnly11 rfl rfl rfl (by decide)⟩

/-! ### The restore-fidelity scenario (claim C1)

Image A (index 0) is blank, then filled opaque red; image B (index 1) is
blank and records one whole-extent `DrawImage` of A.  Context loss
invalidates both GPU textures: their content becomes unspecified
(arbitrary `junk` parameters of the model, as the glossary defines context
loss as requiring every GPU resource to be recreated).  The coordinator
then restores each image once, in one order or the other. -/

/-- The two-image system after the fill and the draw. -/
def scenAfterDraw (w h : Nat) : List ImageState :=
  let sys1 := [(Fill (newImageImpl w h .nearest false) opaqueRed).snd,
               newImageImpl w h .nearest false]
  (DrawImage sys1 1 0 (.whole w h) .identity .identity .sourceOver).snd

/-- Context loss on one image: the texture handle survives but its content
becomes the unspecified post-loss content `junk`. -/
def loseTexture (junk : Nat → RGBA) (i : ImageState) : ImageState :=
  { i with image := some { getImg i.image with pix := junk } }

/-- The scenario system right after context loss. -/
def scenLost (w h : Nat) (junkA junkB : Nat → RGBA) : List ImageState :=
  [loseTexture junkA (getImage (scenAfterDraw w h) 0),
   loseTexture junkB (getImage (scenAfterDraw w h) 1)]

/-- One coordinator step: restore the image at index `k` in place
(`none` when the restore panics). -/
def restoreAt (sys : List ImageState) (k : Nat) : Option (List ImageState) :=
  match restore sys (getImage sys k) with
  | .ok st => some (sys.set k st)
  | .panicNotReach => none

/-- Point-sample image B (index 1) after the coordinator ran. -/
def sampleB (os : Option (List ImageState)) (x y : Nat) : Option RGBA :=
  os.bind (fun s => (At true (getImage s 1) x y).map Prod.fst)

/-- C1 counterexample: for the 1-by-1 scenario with transparent post-loss
texture content, restoring B before A makes B sample fully-transparent
black, not opaque red — B's replay reads A's current (still lost) texture,
so its restore does depend on A's restore having completed first.
Restoring A then B does yield opaque red. -/
theorem restore_order_dependent :
    sampleB ((restoreAt (scenLost 1 1 (fun _ => RGBA.transparent)
        (fun _ => RGBA.transparent)) 1).bind (fun s => restoreAt s 0)) 0 0 =
      some RGBA.transparent ∧
    sampleB ((restoreAt (scenLost 1 1 (fun _ => RGBA.transparent)
        (fun _ => RGBA.transparent)) 0).bind (fun s => restoreAt s 1)) 0 0 =
      some opaqueRed ∧
    (some RGBA.transparent ≠ some opaqueRed) := by
  refine ⟨rfl, rfl, by decide⟩

/-- C1 (amended): in the scenario, restoring A then B yields B sampling
opaque red at every point inside A's footprint, for every post-loss
texture content; but restoring B then A yields B sampling the source-over
composite of A's post-loss junk content over B's transparent seed — B's
replay reads A's current texture, so restore order across images does
matter whenever a history source has not been restored yet. -/
theorem restore_order_scenario (w h x y : Nat) (junkA junkB : Nat → RGBA)
    (hx : x < w) (hy : y < h) :
    sampleB ((restoreAt (scenLost w h junkA junkB) 0).bind
      (fun s => restoreAt s 1)) x y = some opaqueRed ∧
    sampleB ((restoreAt (scenLost w h junkA junkB) 1).bind
      (fun s => restoreAt s 0)) x y =
      some (srcOver (junkA (x + y * w)) RGBA.transparent) := by
  have hb : x + y * w < w * h := by
    calc x + y * w < w + y * w := by omega
    _ = (1 + y) * w := by ring
    _ ≤ h * w := Nat.mul_le_mul_right w (by omega)
    _ = w * h := Nat.mul_comm h w
  constructor
  · show some (colorAt (serializeFrom
        (fun k => srcOver opaqueRed (pixAt (List.replicate (w * h * 4) 0) k))
        (w * h)) (4 * x + 4 * y * w)) = some opaqueRed
    rw [show 4 * x + 4 * y * w = 4 * (x + y * w) by ring,
      colorAt_serializeFrom _ _ _ hb]
    show some (srcOver opaqueRed (pixAt (List.replicate (w * h * 4) 0)
      (x + y * w))) = some opaqueRed
    rw [srcOver_opaqueRed]
  · show some (colorAt (serializeFrom
        (fun k => srcOver (junkA k) (pixAt (List.replicate (w * h * 4) 0) k))
        (w * h)) (4 * x + 4 * y * w)) =
      some (srcOver (junkA (x + y * w)) RGBA.transparent)
    rw [show 4 * x + 4 * y * w = 4 * (x + y * w) by ring,
      colorAt_serializeFrom _ _ _ hb]
    show some (srcOver (junkA (x + y * w)) (pixAt (List.replicate (w * h * 4) 0)
      (x + y * w))) = some (srcOver (junkA (x + y * w)) RGBA.transparent)
    rw [pixAt_replicate_zero]

theorem restore_order_scenario_witness :
    (0 < 1) ∧
    sampleB ((restoreAt (scenLost 1 1 (fun _ => opaqueRed)
        (fun _ => RGBA.transparent)) 0).bind (fun s => restoreAt s 1)) 0 0 =
      some opaqueRed ∧
    sampleB ((restoreAt (scenLost 1 1 (fun _ => opaqueRed)
        (fun _ => RGBA.transparent)) 1).bind (fun s => restoreAt s 0)) 0 0 =
      some (srcOver ((fun _ => opaqueRed) (0 + 0 * 1)) RGBA.transparent) :=
  ⟨Nat.zero_lt_one,
   (restore_order_scenario 1 1 0 0 (fun _ => opaqueRed)
      (fun _ => RGBA.transparent) (by decide) (by decide)).1,
   (restore_order_scenario 1 1 0 0 (fun _ => opaqueRed)
      (fun _ => RGBA.transparent) (by decide) (by decide)).2⟩

end Ebiten

